import Mathlib

/-!
Shallow embedding of the price-import HTTP service (`main.go`).

The service imports product-price records from an uploaded zip archive
containing a CSV file (handler `handlePostPrices`), and exports the stored
table back out as a zip archive (handler `handleGetPrices`).

Modelling conventions:
* The database table `prices` is a `Store`: a list of `StoredPrice` rows plus
  the next SERIAL identifier.
* I/O and database failures that the Go code observes through returned `error`
  values (multipart parsing, `io.Copy`, `BeginTx`, `Prepare`, per-row
  `ExecContext`, `Commit`, the two aggregate reads, `file.Open`) are modelled
  as boolean outcomes carried by `UploadRequest`, `ZipEntry` and `DbOracle`;
  the handler's control flow on those booleans mirrors the Go control flow
  exactly, guard clause by guard clause.
* The zip layer is modelled at entry level: `zip.NewReader` either fails
  (`archive = none`) or yields the list of named entries.  The csv layer is
  modelled at record level: each `reader.Read()` call yields either a parse
  error (`RowRead.err`, which the Go loop skips with `continue`) or a field
  list (`RowRead.ok`).
* `NUMERIC` prices are modelled as `Rat`.  `strconv.ParseFloat` is modelled on
  the decimal-notation subset of Go's float syntax (optional sign, digits,
  optional fraction, optional `e`/`E` exponent); the `inf`/`nan`/hex forms and
  float64 rounding are not modelled.  `strconv.Atoi` is modelled without the
  int64 range clamp.  `strings.ToLower` is modelled on its ASCII action.
  `fmt.Sprintf "%.2f"` is modelled as correct rounding to two decimals with
  ties to even (the sign of a negative zero result is not modelled, as `Rat`
  has no negative zero).
* `time.Parse("2006-01-02", s)` is modelled as an exact `dddd-dd-dd` match
  with Go's month/day range validation; its zero-value fallback is the Go zero
  time's calendar date, January 1 of year 1.
-/

namespace PriceImport

/-- ASCII decimal digit test, as used by Go's `strconv` parsing. -/
def isDigitChar (c : Char) : Bool := 48 ≤ c.toNat && c.toNat ≤ 57

/-- The ASCII character of a decimal digit. -/
def digitChar (d : Nat) : Char := Char.ofNat (48 + d)

/-- Value of a most-significant-first digit string. -/
def digitsVal (l : List Char) : Nat := l.foldl (fun a c => a * 10 + (c.toNat - 48)) 0

/-- Fuelled decimal printer for `Nat` (helper for `itoa`). -/
def natToCharsAux : Nat → Nat → List Char
  | 0, _ => []
  | _ + 1, 0 => []
  | fuel + 1, n + 1 => natToCharsAux fuel ((n + 1) / 10) ++ [digitChar ((n + 1) % 10)]

/-- Decimal digits of a `Nat`, no leading zeros, `"0"` for zero. -/
def natToChars (n : Nat) : List Char := if n = 0 then ['0'] else natToCharsAux (n + 1) n

/-- Model of `strconv.Itoa` on non-negative values (the exported `id`). -/
def itoa (n : Nat) : String := ⟨natToChars n⟩

/-- Model of `strconv.Itoa` on `int` values (the exported `product_id`). -/
def itoaInt : Int → String
  | .ofNat n => itoa n
  | .negSucc m => ⟨'-' :: natToChars (m + 1)⟩

/-- Parse a non-empty all-digit character list. -/
def decodeNat? (l : List Char) : Option Nat :=
  if !l.isEmpty && l.all isDigitChar then some (digitsVal l) else none

/-- Parse an optionally signed decimal integer (shared by `Atoi` and the
`ParseFloat` exponent). -/
def decodeSignedNat? (l : List Char) : Option Int :=
  match l with
  | [] => none
  | c :: r =>
    if c = '-' then (decodeNat? r).map fun n => -(n : Int)
    else if c = '+' then (decodeNat? r).map fun n => (n : Int)
    else (decodeNat? (c :: r)).map fun n => (n : Int)

/-- Model of `strconv.Atoi`: the Go code discards the returned error, so a
syntax failure yields the zero value `0` (line 173 of `main.go`). -/
def atoi (s : String) : Int := (decodeSignedNat? s.data).getD 0

/-- Decoded shape of a Go float literal in decimal notation:
sign, integer part, fraction digits value and length, exponent. -/
structure FloatParts where
  neg : Bool
  ip : Nat
  fp : Nat
  fl : Nat
  ex : Int
deriving DecidableEq, Repr

/-- Mantissa of a float literal: integer digits, optional `.` and fraction
digits; at least one digit is required overall. Returns the unconsumed rest. -/
def decodeMantissa? (l : List Char) : Option (Nat × Nat × Nat × List Char) :=
  let ip := l.takeWhile isDigitChar
  let r1 := l.dropWhile isDigitChar
  match r1 with
  | '.' :: r2 =>
    let fp := r2.takeWhile isDigitChar
    let r3 := r2.dropWhile isDigitChar
    if ip.isEmpty && fp.isEmpty then none
    else some (digitsVal ip, digitsVal fp, fp.length, r3)
  | _ => if ip.isEmpty then none else some (digitsVal ip, 0, 0, r1)

/-- Unsigned float literal: mantissa followed by an optional exponent. -/
def decodeAbs? (l : List Char) : Option FloatParts :=
  match decodeMantissa? l with
  | none => none
  | some (ip, fp, fl, rest) =>
    match rest with
    | [] => some ⟨false, ip, fp, fl, 0⟩
    | 'e' :: er => (decodeSignedNat? er).map fun e => ⟨false, ip, fp, fl, e⟩
    | 'E' :: er => (decodeSignedNat? er).map fun e => ⟨false, ip, fp, fl, e⟩
    | _ => none

/-- Decode a Go float literal (decimal notation) into its parts. -/
def decodeFloat? (s : String) : Option FloatParts :=
  match s.data with
  | [] => none
  | c :: r =>
    if c = '-' then (decodeAbs? r).map fun p => { p with neg := true }
    else if c = '+' then decodeAbs? r
    else decodeAbs? (c :: r)

/-- Rational value denoted by decoded float parts. -/
def ratOfParts (p : FloatParts) : Rat :=
  (cond p.neg (-1) 1) * ((p.ip : Rat) + (p.fp : Rat) / (10 : Rat) ^ p.fl) * (10 : Rat) ^ p.ex

/-- Model of `strconv.ParseFloat` on decimal notation. -/
def parseFloat? (s : String) : Option Rat := (decodeFloat? s).map ratOfParts

/-- Model of line 174 of `main.go`: the error is discarded, so a failed parse
yields the zero value. -/
def parseFloatOr0 (s : String) : Rat := (parseFloat? s).getD 0

/-- Calendar date, the part of `time.Time` this service uses. -/
structure GoDate where
  year : Nat
  month : Nat
  day : Nat
deriving DecidableEq, Repr

/-- Calendar date of Go's zero `time.Time`: January 1, year 1. -/
def zeroDate : GoDate := ⟨1, 1, 1⟩

/-- Gregorian leap-year rule, as in Go's `time` package. -/
def isLeap (y : Nat) : Bool := y % 4 == 0 && (y % 100 != 0 || y % 400 == 0)

/-- Days in a month, as validated by Go's `time.Parse`. -/
def daysInMonth (y m : Nat) : Nat :=
  if m = 2 then (if isLeap y then 29 else 28)
  else if m = 4 || m = 6 || m = 9 || m = 11 then 30
  else 31

/-- Model of `time.Parse("2006-01-02", s)`: exactly four year digits, two
month digits and two day digits, with range validation. -/
def parseDate? (s : String) : Option GoDate :=
  match s.data with
  | [c1, c2, c3, c4, '-', c5, c6, '-', c7, c8] =>
    if [c1, c2, c3, c4, c5, c6, c7, c8].all isDigitChar then
      let y := digitsVal [c1, c2, c3, c4]
      let m := digitsVal [c5, c6]
      let d := digitsVal [c7, c8]
      if 1 ≤ m && m ≤ 12 && 1 ≤ d && d ≤ daysInMonth y m then some ⟨y, m, d⟩ else none
    else none
  | _ => none

/-- Model of line 175 of `main.go`: the error is discarded, so a failed parse
yields the zero time's date. -/
def parseDateOr0 (s : String) : GoDate := (parseDate? s).getD zeroDate

/-- Month/day ranges accepted by `time.Parse` (every stored date satisfies
this, since stored dates come from `parseDateOr0`). -/
def validDateB (d : GoDate) : Bool :=
  1 ≤ d.month && d.month ≤ 12 && 1 ≤ d.day && d.day ≤ daysInMonth d.year d.month

/-- Two zero-padded digits, as `appendInt(_, 2)` produces for values below
100 (months and days always are). -/
def pad2 (n : Nat) : List Char := [digitChar (n / 10 % 10), digitChar (n % 10)]

/-- Four zero-padded year digits for years up to 9999, full digits beyond,
as Go's `appendInt(_, 4)` produces. -/
def year4 (n : Nat) : List Char :=
  if n ≤ 9999 then
    [digitChar (n / 1000), digitChar (n / 100 % 10), digitChar (n / 10 % 10), digitChar (n % 10)]
  else natToChars n

/-- Model of `createDate.Format("2006-01-02")` (line 234 of `main.go`). -/
def formatDate (d : GoDate) : String :=
  ⟨year4 d.year ++ '-' :: pad2 d.month ++ '-' :: pad2 d.day⟩

/-- Round to the nearest integer, ties to even. -/
def rndHalfEven (q : Rat) : Int :=
  let n := ⌊q⌋
  if q - n < 1 / 2 then n
  else if 1 / 2 < q - n then n + 1
  else if n % 2 = 0 then n else n + 1

/-- Number of cents printed by `%.2f`. -/
def cents (q : Rat) : Int := rndHalfEven (q * 100)

/-- Value denoted by the `%.2f` rendering of `q` (two-decimal rounding). -/
def price2 (q : Rat) : Rat := (cents q : Rat) / 100

/-- Decimal rendering of a signed number of cents, `d+.dd`. -/
def formatCents (c : Int) : List Char :=
  (if c < 0 then ['-'] else []) ++ natToChars (c.natAbs / 100) ++ '.' :: pad2 (c.natAbs % 100)

/-- Model of `fmt.Sprintf("%.2f", price)` (line 233 of `main.go`). -/
def formatPrice2 (q : Rat) : String := ⟨formatCents (cents q)⟩

/-- ASCII action of `strings.ToLower` on one character. -/
def lowerChar (c : Char) : Char :=
  if 65 ≤ c.toNat ∧ c.toNat ≤ 90 then Char.ofNat (c.toNat + 32) else c

/-- Model of `strings.HasSuffix`. -/
def endsWithCh (s t : List Char) : Bool := s.drop (s.length - t.length) == t

/-- Model of `strings.HasSuffix(strings.ToLower(filename), ".zip")`
(line 104 of `main.go`). -/
def hasZipSuffix (s : String) : Bool := endsWithCh (s.data.map lowerChar) ".zip".data

/-- A typed record parsed from one CSV row (indices 0, 1, 2, 4, 5). -/
structure PriceRecord where
  productID : Int
  name : String
  category : String
  price : Rat
  createDate : GoDate
deriving DecidableEq, Repr

/-- A persisted row of the `prices` table, with its SERIAL `id`. -/
structure StoredPrice where
  id : Nat
  productID : Int
  name : String
  category : String
  price : Rat
  createDate : GoDate
deriving DecidableEq, Repr

/-- The `prices` table: rows in insertion order plus the next SERIAL value. -/
structure Store where
  nextId : Nat
  rows : List StoredPrice
deriving DecidableEq, Repr

/-- One successful `INSERT INTO prices` with a fresh SERIAL identifier.
Identifiers are fresh and strictly increasing; the gaps a real SERIAL leaves
behind failed insert attempts are not modelled (no claim depends on them). -/
def insertRow (s : Store) (p : PriceRecord) : Store :=
  ⟨s.nextId + 1,
   s.rows ++ [⟨s.nextId, p.productID, p.name, p.category, p.price, p.createDate⟩]⟩

/-- Visible effect of committing a batch of successful inserts. -/
def insertBatch (s : Store) (ps : List PriceRecord) : Store := ps.foldl insertRow s

/-- Model of `SELECT COUNT(DISTINCT category) FROM prices`. -/
def distinctCategories (s : Store) : Nat := ((s.rows.map fun p => p.category).dedup).length

/-- Model of `SELECT COALESCE(SUM(price), 0) FROM prices`. -/
def sumPrice (s : Store) : Rat := (s.rows.map fun p => p.price).sum

/-- Outcome of one `csv.Reader.Read()` call: a parse error (skipped by the
loop's `continue`) or a field list. -/
inductive RowRead where
  | err : RowRead
  | ok (fields : List String) : RowRead
deriving DecidableEq, Repr

/-- A named entry of the uploaded zip archive; `openOk` models the outcome of
`file.Open()`, `content` the sequence of csv reads of its bytes. -/
structure ZipEntry where
  name : String
  openOk : Bool
  content : List RowRead
deriving DecidableEq, Repr

/-- The inbound request as `handlePostPrices` observes it: multipart checks,
the submitted filename, the `io.Copy` outcome, and the `zip.NewReader`
outcome on the uploaded bytes (`none` when they are not a valid archive). -/
structure UploadRequest where
  contentTypeMultipart : Bool
  parseFormOk : Bool
  filePresent : Bool
  filename : String
  readOk : Bool
  archive : Option (List ZipEntry)
deriving DecidableEq, Repr

/-- Outcomes of the database round-trips: transaction begin, statement
preparation, each insert attempt (indexed in order), commit, and the two
aggregate reads. -/
structure DbOracle where
  beginOk : Bool
  prepareOk : Bool
  insertOk : Nat → Bool
  commitOk : Bool
  categoriesReadOk : Bool
  sumReadOk : Bool

/-- The JSON summary returned on success (`InsertResult` in `main.go`). -/
structure InsertResult where
  totalItems : Nat
  totalCategories : Nat
  totalPrice : Rat
deriving DecidableEq, Repr

/-- HTTP outcome of the POST handler: `http.Error(status, msg)` or the
encoded summary. -/
inductive Response where
  | error (status : Nat) (msg : String) : Response
  | ok (result : InsertResult) : Response
deriving DecidableEq, Repr

/-- Model of `findCSV`: the first entry whose name ends in `"data.csv"`. -/
def findCSV (entries : List ZipEntry) : Option ZipEntry :=
  entries.find? fun e => endsWithCh e.name.data "data.csv".data

/-- The record built from one row with at least 6 fields (lines 173-177 of
`main.go`): indices 0, 1, 2, 4, 5; failed conversions yield zero values. -/
def mkRecord (f : List String) : PriceRecord :=
  ⟨atoi (f.getD 0 ""), f.getD 1 "", f.getD 2 "", parseFloatOr0 (f.getD 4 ""),
   parseDateOr0 (f.getD 5 "")⟩

/-- The read-parse-insert loop (lines 159-183 of `main.go`), after the header
has been consumed.  Returns the successfully inserted records in order, the
`inserted` counter, and the next insert-attempt index.  Read errors and rows
with fewer than 6 fields are skipped; rows whose insert attempt fails are
skipped but consume an attempt. -/
def processRows (ok : Nat → Bool) : Nat → List RowRead → List PriceRecord × Nat × Nat
  | attempt, [] => ([], 0, attempt)
  | attempt, .err :: rest => processRows ok attempt rest
  | attempt, .ok f :: rest =>
    if f.length < 6 then processRows ok attempt rest
    else if ok attempt then
      let r := processRows ok (attempt + 1) rest
      (mkRecord f :: r.1, r.2.1 + 1, r.2.2)
    else processRows ok (attempt + 1) rest

/-- Model of `getInsertResult` (lines 281-299 of `main.go`): two aggregate
reads over the whole table; `none` models the returned error. -/
def getInsertResult (db : Store) (o : DbOracle) (inserted : Nat) : Option InsertResult :=
  if !o.categoriesReadOk then none
  else if !o.sumReadOk then none
  else some ⟨inserted, distinctCategories db, sumPrice db⟩

/-- Model of `handlePostPrices` (lines 83-200 of `main.go`), guard clause by
guard clause.  Returns the HTTP outcome and the table state afterwards; all
paths that return before `tx.Commit()` leave the table unchanged (the
deferred `tx.Rollback()` discards the uncommitted inserts). -/
def handlePostPrices (db : Store) (o : DbOracle) (r : UploadRequest) : Response × Store :=
  if !r.contentTypeMultipart then (.error 400 "Expected multipart/form-data", db)
  else if !r.parseFormOk then (.error 400 "Bad Request", db)
  else if !r.filePresent then (.error 400 "Bad Request", db)
  else if !hasZipSuffix r.filename then (.error 400 "File must be a ZIP archive", db)
  else if !r.readOk then (.error 500 "Internal Server Error", db)
  else
    match r.archive with
    | none => (.error 400 "Bad Request", db)
    | some entries =>
      match findCSV entries with
      | none => (.error 400 "CSV file not found in ZIP", db)
      | some entry =>
        if !o.beginOk then (.error 500 "Internal Server Error", db)
        else if !o.prepareOk then (.error 500 "Internal Server Error", db)
        else if !entry.openOk then (.error 500 "Internal Server Error", db)
        else
          let pr := processRows o.insertOk 0 entry.content.tail
          if !o.commitOk then (.error 500 "Internal Server Error", db)
          else
            let db2 := insertBatch db pr.1
            match getInsertResult db2 o pr.2.1 with
            | none => (.error 500 "Internal Server Error", db2)
            | some res => (.ok res, db2)

/-- Header row written by the export path (line 215 of `main.go`). -/
def csvHeader : List String := ["id", "product_id", "name", "category", "price", "create_date"]

/-- One exported CSV row (lines 228-235 of `main.go`). -/
def exportRow (p : StoredPrice) : List String :=
  [itoa p.id, itoaInt p.productID, p.name, p.category, formatPrice2 p.price,
   formatDate p.createDate]

/-- Insertion into a list sorted by `id` (helper for `ORDER BY id ASC`). -/
def insertSorted (p : StoredPrice) : List StoredPrice → List StoredPrice
  | [] => [p]
  | q :: qs => if p.id ≤ q.id then p :: q :: qs else q :: insertSorted p qs

/-- Model of `ORDER BY id ASC` over the table rows. -/
def sortById (l : List StoredPrice) : List StoredPrice := l.foldr insertSorted []

/-- The full CSV table written by the export path: header plus all rows
ordered by `id`. -/
def csvAll (s : Store) : List (List String) := csvHeader :: (sortById s.rows).map exportRow

/-- Model of `handleGetPrices` (lines 202-279 of `main.go`) on its success
path: a single-entry archive named `data.csv` holding the serialized table. -/
def handleGetPrices (s : Store) : List ZipEntry :=
  [⟨"data.csv", true, (csvAll s).map RowRead.ok⟩]

def storedOf : Nat → List PriceRecord → List StoredPrice
  | _, [] => []
  | i, p :: ps => ⟨i, p.productID, p.name, p.category, p.price, p.createDate⟩ :: storedOf (i + 1) ps

/-- Whether a csv read yields a row the loop attempts to insert (at least 6
fields, no read error). -/
def validFields : RowRead → Option (List String)
  | .err => none
  | .ok f => if f.length < 6 then none else some f

/-- The number of data rows that had at least 6 columns and whose insert
attempt succeeded, attempts indexed from `start`. -/
def countInserted (ok : Nat → Bool) (start : Nat) (rows : List RowRead) : Nat :=
  ((rows.filterMap validFields).enumFrom start).countP fun x => ok x.1

/-- Database oracle in which every database operation succeeds. -/
def allOkOracle : DbOracle := ⟨true, true, fun _ => true, true, true, true⟩

/-- The upload a client performs when re-submitting the exported archive
unchanged. -/
def exportUpload (s : Store) : UploadRequest :=
  ⟨true, true, true, "prices.zip", true, some (handleGetPrices s)⟩

/-- The record the import loop builds from an exported row: the positional
layouts differ, so `productID` receives the exported store `id`, `name` the
printed original `productID`, `category` the original `name`; only the price
(rounded to two decimals by the export) and the date survive in place. -/
def reimport (p : StoredPrice) : PriceRecord :=
  ⟨(p.id : Int), itoaInt p.productID, p.name, price2 p.price, p.createDate⟩

/-- The upload of the spec's aggregate test scenario: an archive whose data
entry holds a header row and two rows with prices 10.00 and 20.50. -/
def twoPriceUpload : UploadRequest :=
  ⟨true, true, true, "prices.zip", true,
   some [⟨"data.csv", true,
     [RowRead.ok ["id", "name", "category", "extra", "price", "create_date"],
      RowRead.ok ["1", "a", "catA", "x", "10.00", "2024-01-02"],
      RowRead.ok ["2", "b", "catB", "x", "20.50", "2024-01-03"]]⟩]⟩

/-- A one-row store used as concrete test fixture. -/
def sampleStore : Store := ⟨2, [⟨1, 42, "apple", "fruit", 10, ⟨2024, 1, 2⟩⟩]⟩

/-- An empty store fixture. -/
def emptyStore : Store := ⟨1, []⟩

/-- A well-formed archive entry fixture with one header and one data row. -/
def sampleEntry : ZipEntry :=
  ⟨"data.csv", true,
   [RowRead.ok ["id", "name", "category", "extra", "price", "create_date"],
    RowRead.ok ["7", "n", "c", "x", "1.00", "2024-05-06"]]⟩

/-- A fully well-formed upload fixture carrying `sampleEntry`. -/
def sampleRequest : UploadRequest := ⟨true, true, true, "up.zip", true, some [sampleEntry]⟩

/-- An oracle whose commit fails and everything else succeeds. -/
def commitFailOracle : DbOracle := ⟨true, true, fun _ => true, false, true, true⟩

/-- An oracle whose category aggregate read fails, everything else succeeds. -/
def aggFailOracle : DbOracle := ⟨true, true, fun _ => true, true, false, true⟩

/-- A row fixture on which all three field conversions fail. -/
def badRow : List String := ["abc", "n", "c", "x", "1,2", "2024-13-40"]

/-- A five-column row fixture. -/
def shortRow : List String := ["1", "2", "3", "4", "5"]

lemma toNat_digitChar {d : Nat} (h : d ≤ 9) : (digitChar d).toNat = 48 + d := by
  interval_cases d <;> decide

lemma isDigitChar_digitChar {d : Nat} (h : d ≤ 9) : isDigitChar (digitChar d) = true := by
  interval_cases d <;> decide

lemma digitsVal_append_singleton (A : List Char) (c : Char) :
    digitsVal (A ++ [c]) = digitsVal A * 10 + (c.toNat - 48) := by
  simp [digitsVal, List.foldl_append]

lemma natToCharsAux_all (fuel n : Nat) : ∀ c ∈ natToCharsAux fuel n, isDigitChar c = true := by
  induction fuel generalizing n with
  | zero => simp [natToCharsAux]
  | succ fuel ih =>
    cases n with
    | zero => simp [natToCharsAux]
    | succ m =>
      intro c hc
      rw [natToCharsAux] at hc
      rcases List.mem_append.mp hc with h | h
      · exact ih _ c h
      · rcases List.mem_singleton.mp h with rfl
        exact isDigitChar_digitChar (by omega)

lemma digitsVal_natToCharsAux (fuel : Nat) : ∀ n, n < 10 ^ fuel → digitsVal (natToCharsAux fuel n) = n := by
  induction fuel with
  | zero => intro n h; interval_cases n; simp [natToCharsAux, digitsVal]
  | succ fuel ih =>
    intro n h
    cases n with
    | zero => simp [natToCharsAux, digitsVal]
    | succ m =>
      have hlt : (m + 1) / 10 < 10 ^ fuel := by
        rw [pow_succ] at h
        omega
      rw [natToCharsAux, digitsVal_append_singleton, ih _ hlt, toNat_digitChar (by omega)]
      omega

lemma natToChars_all (n : Nat) : ∀ c ∈ natToChars n, isDigitChar c = true := by
  unfold natToChars
  split
  · intro c hc; rcases List.mem_singleton.mp hc with rfl; decide
  · exact natToCharsAux_all _ _

lemma digitsVal_natToChars (n : Nat) : digitsVal (natToChars n) = n := by
  unfold natToChars
  split
  · subst n; decide
  · exact digitsVal_natToCharsAux _ _
      (lt_of_lt_of_le (Nat.lt_pow_self (by norm_num) n)
        (Nat.pow_le_pow_right (by norm_num) (Nat.le_succ n)))

lemma natToChars_ne_nil (n : Nat) : natToChars n ≠ [] := by
  unfold natToChars
  split
  · simp
  · rename_i hn
    cases n with
    | zero => exact absurd rfl hn
    | succ m => rw [natToCharsAux]; simp

lemma decodeNat_natToChars (n : Nat) : decodeNat? (natToChars n) = some n := by
  unfold decodeNat?
  have h1 : (!(natToChars n).isEmpty && (natToChars n).all isDigitChar) = true := by
    simp [List.isEmpty_iff, natToChars_ne_nil, List.all_eq_true]
    exact natToChars_all n
  rw [if_pos h1, digitsVal_natToChars]

lemma digit_ne_dash {c : Char} (h : isDigitChar c = true) : c ≠ '-' := by
  intro rfl_h; subst rfl_h; simp [isDigitChar] at h

lemma digit_ne_plus {c : Char} (h : isDigitChar c = true) : c ≠ '+' := by
  intro rfl_h; subst rfl_h; simp [isDigitChar] at h

lemma atoi_itoa (n : Nat) : atoi (itoa n) = (n : Int) := by
  obtain ⟨c, r, he⟩ := List.exists_cons_of_ne_nil (natToChars_ne_nil n)
  have hc : isDigitChar c = true := natToChars_all n c (by rw [he]; simp)
  have hdata : (itoa n).data = natToChars n := rfl
  unfold atoi decodeSignedNat?
  rw [hdata, he]
  simp only [if_neg (digit_ne_dash hc), if_neg (digit_ne_plus hc)]
  rw [← he, decodeNat_natToChars]
  rfl

lemma takeWhile_append_stop {p : Char → Bool} (A : List Char) {x : Char} (B : List Char)
    (hA : ∀ c ∈ A, p c = true) (hx : p x = false) :
    (A ++ x :: B).takeWhile p = A ∧ (A ++ x :: B).dropWhile p = x :: B := by
  induction A with
  | nil => simp [List.takeWhile_cons, List.dropWhile_cons, hx]
  | cons a t ih =>
    have ha := hA a (by simp)
    have iht := ih fun c hc => hA c (by simp [hc])
    simp [List.takeWhile_cons, List.dropWhile_cons, ha, iht.1, iht.2]

lemma takeWhile_all_eq {p : Char → Bool} (A : List Char) (hA : ∀ c ∈ A, p c = true) :
    A.takeWhile p = A ∧ A.dropWhile p = [] := by
  induction A with
  | nil => simp
  | cons a t ih =>
    have ha := hA a (by simp)
    have iht := ih fun c hc => hA c (by simp [hc])
    simp [List.takeWhile_cons, List.dropWhile_cons, ha, iht.1, iht.2]

lemma pad2_all (n : Nat) : ∀ c ∈ pad2 n, isDigitChar c = true := by
  intro c hc
  simp only [pad2, List.mem_cons, List.not_mem_nil, or_false] at hc
  rcases hc with rfl | rfl
  · exact isDigitChar_digitChar (by omega)
  · exact isDigitChar_digitChar (by omega)

lemma digitsVal_pad2 {n : Nat} (h : n < 100) : digitsVal (pad2 n) = n := by
  simp only [pad2, digitsVal, List.foldl_cons, List.foldl_nil,
    toNat_digitChar (show n / 10 % 10 ≤ 9 by omega), toNat_digitChar (show n % 10 ≤ 9 by omega)]
  omega

lemma decodeMantissa_price (a b : Nat) (hb : b < 100) :
    decodeMantissa? (natToChars a ++ '.' :: pad2 b) = some (a, b, 2, []) := by
  have h1 := takeWhile_append_stop (p := isDigitChar) (x := '.') (natToChars a) (pad2 b)
    (natToChars_all a) (by decide)
  have h2 := takeWhile_all_eq (p := isDigitChar) (pad2 b) (pad2_all b)
  simp only [decodeMantissa?, h1.1, h1.2, h2.1, h2.2]
  rw [if_neg]
  · have h3 : (pad2 b).length = 2 := rfl
    simp [digitsVal_natToChars, digitsVal_pad2 hb, h3]
  · simp [List.isEmpty_iff, natToChars_ne_nil]

lemma decodeAbs_price (a b : Nat) (hb : b < 100) :
    decodeAbs? (natToChars a ++ '.' :: pad2 b) = some ⟨false, a, b, 2, 0⟩ := by
  rw [decodeAbs?, decodeMantissa_price a b hb]

lemma decodeFloat_formatPrice2 (q : Rat) :
    decodeFloat? (formatPrice2 q) =
      some ⟨decide (cents q < 0), (cents q).natAbs / 100, (cents q).natAbs % 100, 2, 0⟩ := by
  have hdata : (formatPrice2 q).data = formatCents (cents q) := rfl
  have hmod : (cents q).natAbs % 100 < 100 := Nat.mod_lt _ (by norm_num)
  rcases lt_or_le (cents q) 0 with hneg | hpos
  · have h1 : formatCents (cents q) =
        '-' :: (natToChars ((cents q).natAbs / 100) ++ '.' :: pad2 ((cents q).natAbs % 100)) := by
      simp [formatCents, if_pos hneg]
    unfold decodeFloat?
    rw [hdata, h1]
    simp [decodeAbs_price _ _ hmod, hneg]
  · have h1 : formatCents (cents q) =
        natToChars ((cents q).natAbs / 100) ++ '.' :: pad2 ((cents q).natAbs % 100) := by
      simp [formatCents, if_neg (not_lt.mpr hpos)]
    obtain ⟨c, r, he⟩ := List.exists_cons_of_ne_nil (natToChars_ne_nil ((cents q).natAbs / 100))
    have hc : isDigitChar c = true := natToChars_all _ c (by rw [he]; simp)
    unfold decodeFloat?
    rw [hdata, h1, he, List.cons_append]
    simp only [if_neg (digit_ne_dash hc), if_neg (digit_ne_plus hc)]
    rw [← List.cons_append, ← he, decodeAbs_price _ _ hmod]
    simp [not_lt.mpr hpos]

lemma parseFloat_formatPrice2 (q : Rat) : parseFloat? (formatPrice2 q) = some (price2 q) := by
  rw [parseFloat?, decodeFloat_formatPrice2]
  simp only [Option.map_some']
  congr 1
  rw [ratOfParts, price2]
  have hdm : ((cents q).natAbs / 100 : Nat) * 100 + (cents q).natAbs % 100 = (cents q).natAbs := by
    omega
  have key : (((cents q).natAbs / 100 : Nat) : Rat) + (((cents q).natAbs % 100 : Nat) : Rat) / 100 =
      ((cents q).natAbs : Rat) / 100 := by
    field_simp
    exact_mod_cast hdm
  have h102 : ((10 : Rat) ^ (2 : Nat)) = 100 := by norm_num
  rcases lt_or_le (cents q) 0 with hneg | hpos
  · have habs : ((cents q).natAbs : Rat) = -((cents q : Int) : Rat) := by
      rw [Int.cast_natAbs, abs_of_neg hneg]
      push_cast
      ring
    rw [show decide (cents q < 0) = true from decide_eq_true hneg]
    simp only [cond_true, zpow_zero, mul_one, h102]
    rw [key, habs]
    ring
  · have habs : ((cents q).natAbs : Rat) = ((cents q : Int) : Rat) := by
      rw [Int.cast_natAbs, abs_of_nonneg hpos]
    rw [show decide (cents q < 0) = false from decide_eq_false (not_lt.mpr hpos)]
    simp only [cond_false, zpow_zero, mul_one, h102, one_mul]
    rw [key, habs]

lemma parseFloatOr0_formatPrice2 (q : Rat) : parseFloatOr0 (formatPrice2 q) = price2 q := by
  rw [parseFloatOr0, parseFloat_formatPrice2]
  rfl

lemma daysInMonth_le31 (y m : Nat) : daysInMonth y m ≤ 31 := by
  unfold daysInMonth
  split
  · split <;> omega
  · split <;> omega

lemma parseDate_formatDate {d : GoDate} (hv : validDateB d = true) (hy : d.year ≤ 9999) :
    parseDate? (formatDate d) = some d := by
  obtain ⟨y, m, dd⟩ := d
  simp only [validDateB, Bool.and_eq_true, decide_eq_true_eq] at hv
  obtain ⟨⟨⟨hm1, hm2⟩, hd1⟩, hd2⟩ := hv
  have hy' : y ≤ 9999 := hy
  have hd2' : dd ≤ daysInMonth y m := hd2
  have hdlt : dd < 100 := lt_of_le_of_lt (le_trans hd2' (daysInMonth_le31 y m)) (by norm_num)
  have hmlt : m < 100 := by omega
  have hy4 : digitsVal [digitChar (y / 1000), digitChar (y / 100 % 10), digitChar (y / 10 % 10),
      digitChar (y % 10)] = y := by
    simp only [digitsVal, List.foldl_cons, List.foldl_nil,
      toNat_digitChar (show y / 1000 ≤ 9 by omega), toNat_digitChar (show y / 100 % 10 ≤ 9 by omega),
      toNat_digitChar (show y / 10 % 10 ≤ 9 by omega), toNat_digitChar (show y % 10 ≤ 9 by omega)]
    omega

  have hdata : (formatDate ⟨y, m, dd⟩).data =
      [digitChar (y / 1000), digitChar (y / 100 % 10), digitChar (y / 10 % 10), digitChar (y % 10),
       '-', digitChar (m / 10 % 10), digitChar (m % 10), '-', digitChar (dd / 10 % 10),
       digitChar (dd % 10)] := by
    show year4 y ++ '-' :: pad2 m ++ '-' :: pad2 dd = _
    rw [year4, if_pos hy']
    rfl
  unfold parseDate?
  rw [hdata]
  have hall : [digitChar (y / 1000), digitChar (y / 100 % 10), digitChar (y / 10 % 10),
      digitChar (y % 10), digitChar (m / 10 % 10), digitChar (m % 10), digitChar (dd / 10 % 10),
      digitChar (dd % 10)].all isDigitChar = true := by
    simp only [List.all_cons, List.all_nil, Bool.and_eq_true,
      isDigitChar_digitChar (show y / 1000 ≤ 9 by omega),
      isDigitChar_digitChar (show y / 100 % 10 ≤ 9 by omega),
      isDigitChar_digitChar (show y / 10 % 10 ≤ 9 by omega),
      isDigitChar_digitChar (show y % 10 ≤ 9 by omega),
      isDigitChar_digitChar (show m / 10 % 10 ≤ 9 by omega),
      isDigitChar_digitChar (show m % 10 ≤ 9 by omega),
      isDigitChar_digitChar (show dd / 10 % 10 ≤ 9 by omega),
      isDigitChar_digitChar (show dd % 10 ≤ 9 by omega)]
    simp
  simp only [hall, if_pos]
  have hm' : digitsVal [digitChar (m / 10 % 10), digitChar (m % 10)] = m := digitsVal_pad2 hmlt
  have hd' : digitsVal [digitChar (dd / 10 % 10), digitChar (dd % 10)] = dd := digitsVal_pad2 hdlt
  rw [hy4, hm', hd']
  rw [if_pos]
  simp only [Bool.and_eq_true, decide_eq_true_eq]
  exact ⟨⟨⟨hm1, hm2⟩, hd1⟩, hd2⟩

lemma parseDateOr0_formatDate {d : GoDate} (hv : validDateB d = true) (hy : d.year ≤ 9999) :
    parseDateOr0 (formatDate d) = d := by
  rw [parseDateOr0, parseDate_formatDate hv hy]
  rfl

lemma mkRecord_exportRow {p : StoredPrice} (hv : validDateB p.createDate = true)
    (hy : p.createDate.year ≤ 9999) :
    mkRecord (exportRow p) =
      ⟨(p.id : Int), itoaInt p.productID, p.name, price2 p.price, p.createDate⟩ := by
  show mkRecord [itoa p.id, itoaInt p.productID, p.name, p.category, formatPrice2 p.price,
    formatDate p.createDate] = _
  rw [mkRecord]
  simp only [List.getD_cons_zero, List.getD_cons_succ]
  rw [atoi_itoa, parseFloatOr0_formatPrice2, parseDateOr0_formatDate hv hy]

lemma exportRow_length (p : StoredPrice) : (exportRow p).length = 6 := rfl

lemma insertBatch_eq : ∀ (ps : List PriceRecord) (db : Store),
    insertBatch db ps = ⟨db.nextId + ps.length, db.rows ++ storedOf db.nextId ps⟩ := by
  intro ps
  induction ps with
  | nil => intro db; simp [insertBatch, storedOf]
  | cons p t ih =>
    intro db
    show insertBatch (insertRow db p) t = _
    rw [ih]
    simp [insertRow, storedOf, List.append_assoc]
    omega

lemma processRows_allOk : ∀ (l : List (List String)) (a : Nat), (∀ f ∈ l, 6 ≤ f.length) →
    processRows (fun _ => true) a (l.map RowRead.ok) = (l.map mkRecord, l.length, a + l.length) := by
  intro l
  induction l with
  | nil => intro a _; simp [processRows]
  | cons f t ih =>
    intro a h
    have hf : ¬f.length < 6 := not_lt.mpr (h f (by simp))
    rw [List.map_cons, processRows, if_neg hf, if_pos rfl, ih (a + 1) fun g hg => h g (by simp [hg])]
    simp only [List.map_cons, List.length_cons, Prod.mk.injEq]
    exact ⟨trivial, trivial, by omega⟩

lemma countInserted_err (ok : Nat → Bool) (a : Nat) (t : List RowRead) :
    countInserted ok a (RowRead.err :: t) = countInserted ok a t := by
  rw [countInserted, countInserted, List.filterMap_cons]
  simp [validFields]

lemma countInserted_short (ok : Nat → Bool) (a : Nat) {f : List String} (hf : f.length < 6)
    (t : List RowRead) : countInserted ok a (RowRead.ok f :: t) = countInserted ok a t := by
  rw [countInserted, countInserted, List.filterMap_cons]
  simp [validFields, if_pos hf]

lemma countInserted_long (ok : Nat → Bool) (a : Nat) {f : List String} (hf : ¬f.length < 6)
    (t : List RowRead) : countInserted ok a (RowRead.ok f :: t) =
      countInserted ok (a + 1) t + (if ok a = true then 1 else 0) := by
  rw [countInserted, countInserted, List.filterMap_cons]
  simp only [validFields, if_neg hf, List.enumFrom_cons, List.countP_cons]

lemma processRows_count (ok : Nat → Bool) :
    ∀ (rows : List RowRead) (a : Nat), (processRows ok a rows).2.1 = countInserted ok a rows := by
  intro rows
  induction rows with
  | nil => intro a; simp [processRows, countInserted]
  | cons x t ih =>
    intro a
    cases x with
    | err =>
      rw [countInserted_err]
      show (processRows ok a t).2.1 = _
      exact ih a
    | ok f =>
      by_cases hf : f.length < 6
      · rw [countInserted_short ok a hf]
        rw [processRows, if_pos hf]
        exact ih a
      · rw [countInserted_long ok a hf]
        by_cases ha : ok a = true
        · rw [processRows, if_neg hf, if_pos ha]
          show (processRows ok (a + 1) t).2.1 + 1 = _
          rw [ih (a + 1), if_pos ha]
        · rw [processRows, if_neg hf, if_neg ha]
          rw [ih (a + 1), if_neg ha]
          omega

lemma processRows_len (ok : Nat → Bool) :
    ∀ (rows : List RowRead) (a : Nat), (processRows ok a rows).1.length = (processRows ok a rows).2.1 := by
  intro rows
  induction rows with
  | nil => intro a; simp [processRows]
  | cons x t ih =>
    intro a
    cases x with
    | err =>
      show (processRows ok a t).1.length = (processRows ok a t).2.1
      exact ih a
    | ok f =>
      by_cases hf : f.length < 6
      · rw [processRows, if_pos hf]
        exact ih a
      · by_cases ha : ok a = true
        · rw [processRows, if_neg hf, if_pos ha]
          show (processRows ok (a + 1) t).1.length + 1 = (processRows ok (a + 1) t).2.1 + 1
          rw [ih (a + 1)]
        · rw [processRows, if_neg hf, if_neg ha]
          exact ih (a + 1)

lemma processRows_skip_short (ok : Nat → Bool) {f : List String} (hf : f.length < 6) :
    ∀ (pre : List RowRead) (post : List RowRead) (a : Nat),
      processRows ok a (pre ++ RowRead.ok f :: post) = processRows ok a (pre ++ post) := by
  intro pre
  induction pre with
  | nil => intro post a; rw [List.nil_append, List.nil_append, processRows, if_pos hf]
  | cons x t ih =>
    intro post a
    cases x with
    | err =>
      rw [List.cons_append, List.cons_append]
      show processRows ok a (t ++ RowRead.ok f :: post) = processRows ok a (t ++ post)
      exact ih post a
    | ok g =>
      rw [List.cons_append, List.cons_append]
      by_cases hg : g.length < 6
      · rw [processRows, if_pos hg, processRows, if_pos hg]
        exact ih post a
      · by_cases ha : ok a = true
        · rw [processRows, if_neg hg, if_pos ha, processRows, if_neg hg, if_pos ha, ih post (a + 1)]
        · rw [processRows, if_neg hg, if_neg ha, processRows, if_neg hg, if_neg ha]
          exact ih post (a + 1)

lemma processRows_skip_err (ok : Nat → Bool) :
    ∀ (pre : List RowRead) (post : List RowRead) (a : Nat),
      processRows ok a (pre ++ RowRead.err :: post) = processRows ok a (pre ++ post) := by
  intro pre
  induction pre with
  | nil =>
    intro post a
    rw [List.nil_append, List.nil_append]
    show processRows ok a post = processRows ok a post
    rfl
  | cons x t ih =>
    intro post a
    cases x with
    | err =>
      rw [List.cons_append, List.cons_append]
      show processRows ok a (t ++ RowRead.err :: post) = processRows ok a (t ++ post)
      exact ih post a
    | ok g =>
      rw [List.cons_append, List.cons_append]
      by_cases hg : g.length < 6
      · rw [processRows, if_pos hg, processRows, if_pos hg]
        exact ih post a
      · by_cases ha : ok a = true
        · rw [processRows, if_neg hg, if_pos ha, processRows, if_neg hg, if_pos ha, ih post (a + 1)]
        · rw [processRows, if_neg hg, if_neg ha, processRows, if_neg hg, if_neg ha]
          exact ih post (a + 1)

lemma insertSorted_length (p : StoredPrice) :
    ∀ l : List StoredPrice, (insertSorted p l).length = l.length + 1 := by
  intro l
  induction l with
  | nil => rfl
  | cons q t ih =>
    rw [insertSorted]
    split
    · rfl
    · simp [ih]

lemma sortById_length (l : List StoredPrice) : (sortById l).length = l.length := by
  induction l with
  | nil => rfl
  | cons p t ih =>
    show (insertSorted p (sortById t)).length = t.length + 1
    rw [insertSorted_length, ih]

lemma mem_insertSorted {x p : StoredPrice} :
    ∀ l : List StoredPrice, x ∈ insertSorted p l ↔ x = p ∨ x ∈ l := by
  intro l
  induction l with
  | nil => simp [insertSorted]
  | cons q t ih =>
    rw [insertSorted]
    split
    · simp
    · simp only [List.mem_cons, ih]
      tauto

lemma mem_sortById {x : StoredPrice} : ∀ l : List StoredPrice, x ∈ sortById l ↔ x ∈ l := by
  intro l
  induction l with
  | nil => simp [sortById]
  | cons p t ih =>
    show x ∈ insertSorted p (sortById t) ↔ _
    rw [mem_insertSorted, ih]
    simp

lemma findCSV_none_iff (es : List ZipEntry) :
    findCSV es = none ↔ ∀ e ∈ es, endsWithCh e.name.data "data.csv".data = false := by
  rw [findCSV, List.find?_eq_none]
  constructor
  · intro h e he
    exact Bool.eq_false_iff.mpr (h e he)
  · intro h e he
    rw [h e he]
    simp

lemma findCSV_first (pre : List ZipEntry) (e : ZipEntry) (post : List ZipEntry)
    (hpre : ∀ x ∈ pre, endsWithCh x.name.data "data.csv".data = false)
    (he : endsWithCh e.name.data "data.csv".data = true) :
    findCSV (pre ++ e :: post) = some e := by
  induction pre with
  | nil => rw [List.nil_append, findCSV, List.find?_cons, he]
  | cons x t ih =>
    rw [List.cons_append, findCSV, List.find?_cons, hpre x (by simp)]
    exact ih fun y hy => hpre y (by simp [hy])

lemma roundtrip_eval (s db : Store)
    (hv : ∀ p ∈ s.rows, validDateB p.createDate = true ∧ p.createDate.year ≤ 9999) :
    handlePostPrices db allOkOracle (exportUpload s) =
      (Response.ok ⟨s.rows.length,
         distinctCategories (insertBatch db ((sortById s.rows).map reimport)),
         sumPrice (insertBatch db ((sortById s.rows).map reimport))⟩,
       insertBatch db ((sortById s.rows).map reimport)) := by
  have hzip : hasZipSuffix "prices.zip" = true := by decide
  have hp : endsWithCh ("data.csv" : String).data ("data.csv" : String).data = true := by decide
  have hfind : findCSV (handleGetPrices s) =
      some ⟨"data.csv", true, (csvAll s).map RowRead.ok⟩ := by
    rw [handleGetPrices, findCSV]
    exact List.find?_cons_of_pos _ hp
  have hlen : ∀ f ∈ (sortById s.rows).map exportRow, 6 ≤ f.length := by
    intro f hf
    obtain ⟨p, _, rfl⟩ := List.mem_map.mp hf
    rw [exportRow_length]
  have hproc := processRows_allOk ((sortById s.rows).map exportRow) 0 hlen
  have hmap : ((sortById s.rows).map exportRow).map mkRecord = (sortById s.rows).map reimport := by
    rw [List.map_map]
    apply List.map_congr_left
    intro x hx
    obtain ⟨h1, h2⟩ := hv x ((mem_sortById _).mp hx)
    exact mkRecord_exportRow h1 h2
  have htail : ((csvAll s).map RowRead.ok).tail = ((sortById s.rows).map exportRow).map RowRead.ok := by
    rw [csvAll]
    simp
  rw [handlePostPrices]
  simp only [exportUpload, hzip, Bool.not_true, Bool.false_eq_true, if_false, hfind]
  simp only [htail, hproc, hmap, allOkOracle, Bool.not_true, Bool.false_eq_true, if_false,
    getInsertResult]
  rw [List.length_map, sortById_length]

lemma storedOf_length : ∀ (ps : List PriceRecord) (i : Nat), (storedOf i ps).length = ps.length := by
  intro ps
  induction ps with
  | nil => intro i; rfl
  | cons p t ih => intro i; simp [storedOf, ih]

/-- Claim C2: for every upload that reaches a successful commit and summary,
the `totalItems` value in the response equals exactly the number of data rows
after the header that had at least 6 columns and whose insert attempt
succeeded, and the table grows by exactly that many rows. -/
theorem c2_total_items_count (db : Store) (o : DbOracle) (r : UploadRequest)
    (es : List ZipEntry) (e : ZipEntry)
    (h1 : r.contentTypeMultipart = true) (h2 : r.parseFormOk = true) (h3 : r.filePresent = true)
    (h4 : hasZipSuffix r.filename = true) (h5 : r.readOk = true) (h6 : r.archive = some es)
    (h7 : findCSV es = some e) (h8 : e.openOk = true) (h9 : o.beginOk = true)
    (h10 : o.prepareOk = true) (h11 : o.commitOk = true) (h12 : o.categoriesReadOk = true)
    (h13 : o.sumReadOk = true) :
    ∃ st res, handlePostPrices db o r = (Response.ok res, st) ∧
      res.totalItems = countInserted o.insertOk 0 e.content.tail ∧
      st.rows.length = db.rows.length + res.totalItems := by
  refine ⟨insertBatch db (processRows o.insertOk 0 e.content.tail).1,
    ⟨(processRows o.insertOk 0 e.content.tail).2.1,
     distinctCategories (insertBatch db (processRows o.insertOk 0 e.content.tail).1),
     sumPrice (insertBatch db (processRows o.insertOk 0 e.content.tail).1)⟩, ?_, ?_, ?_⟩
  · rw [handlePostPrices]
    simp [h1, h2, h3, h4, h5, h6, h7, h8, h9, h10, h11, h12, h13, getInsertResult]
  · exact processRows_count o.insertOk e.content.tail 0
  · rw [insertBatch_eq]
    simp only [List.length_append, storedOf_length]
    rw [processRows_len]

/-- Claim C3: a row with at least 6 fields whose insert attempt succeeds is
inserted even when field conversions fail; an unparseable product id yields 0,
an unparseable price yields 0, and an unparseable date yields the zero date. -/
theorem c3_lenient_field_conversions (f : List String) (o : Nat → Bool) (a : Nat)
    (rest : List RowRead) (h6 : 6 ≤ f.length) (hok : o a = true) :
    processRows o a (RowRead.ok f :: rest) =
      (mkRecord f :: (processRows o (a + 1) rest).1,
       (processRows o (a + 1) rest).2.1 + 1, (processRows o (a + 1) rest).2.2) ∧
    (decodeSignedNat? (f.getD 0 "").data = none → (mkRecord f).productID = 0) ∧
    (decodeFloat? (f.getD 4 "") = none → (mkRecord f).price = 0) ∧
    (parseDate? (f.getD 5 "") = none → (mkRecord f).createDate = zeroDate) := by
  refine ⟨?_, ?_, ?_, ?_⟩
  · rw [processRows, if_neg (not_lt.mpr h6), if_pos hok]
  · intro h
    show atoi (f.getD 0 "") = 0
    rw [atoi, h]
    rfl
  · intro h
    show parseFloatOr0 (f.getD 4 "") = 0
    rw [parseFloatOr0, parseFloat?, h]
    rfl
  · intro h
    show parseDateOr0 (f.getD 5 "") = zeroDate
    rw [parseDateOr0, h]
    rfl

/-- Claim C4: a row with fewer than 6 fields (and likewise a csv read error,
the path through which inconsistent field counts are reported) is skipped
without aborting the stream, contributes nothing to the result, and the
whole request behaves exactly as if the row were absent. -/
theorem c4_short_row_skipped (o : DbOracle) (db : Store) (a : Nat) (name : String)
    (hdr : RowRead) (pre post : List RowRead) {f : List String} (hf : f.length < 6) :
    processRows o.insertOk a (pre ++ RowRead.ok f :: post) =
      processRows o.insertOk a (pre ++ post) ∧
    processRows o.insertOk a (pre ++ RowRead.err :: post) =
      processRows o.insertOk a (pre ++ post) ∧
    handlePostPrices db o ⟨true, true, true, name, true,
        some [⟨"data.csv", true, hdr :: (pre ++ RowRead.ok f :: post)⟩]⟩ =
      handlePostPrices db o ⟨true, true, true, name, true,
        some [⟨"data.csv", true, hdr :: (pre ++ post)⟩]⟩ := by
  refine ⟨processRows_skip_short o.insertOk hf pre post a,
    processRows_skip_err o.insertOk pre post a, ?_⟩
  have hp : endsWithCh ("data.csv" : String).data ("data.csv" : String).data = true := by decide
  have hf1 : findCSV [⟨"data.csv", true, hdr :: (pre ++ RowRead.ok f :: post)⟩] =
      some ⟨"data.csv", true, hdr :: (pre ++ RowRead.ok f :: post)⟩ := by
    rw [findCSV]
    exact List.find?_cons_of_pos _ hp
  have hf2 : findCSV [⟨"data.csv", true, hdr :: (pre ++ post)⟩] =
      some ⟨"data.csv", true, hdr :: (pre ++ post)⟩ := by
    rw [findCSV]
    exact List.find?_cons_of_pos _ hp
  rw [handlePostPrices, handlePostPrices]
  simp only [hf1, hf2, List.cons_append, List.tail_cons]
  rw [processRows_skip_short o.insertOk hf pre post 0]

/-- Claim C5: when the request reaches the transaction and the commit fails,
the handler reports a hard 500 failure and the table is left exactly as it
was: no row of the batch is visible. -/
theorem c5_commit_failure_rolls_back (db : Store) (o : DbOracle) (r : UploadRequest)
    (es : List ZipEntry) (e : ZipEntry)
    (h1 : r.contentTypeMultipart = true) (h2 : r.parseFormOk = true) (h3 : r.filePresent = true)
    (h4 : hasZipSuffix r.filename = true) (h5 : r.readOk = true) (h6 : r.archive = some es)
    (h7 : findCSV es = some e) (h8 : e.openOk = true) (h9 : o.beginOk = true)
    (h10 : o.prepareOk = true) (h11 : o.commitOk = false) :
    handlePostPrices db o r = (Response.error 500 "Internal Server Error", db) := by
  rw [handlePostPrices]
  simp [h1, h2, h3, h4, h5, h6, h7, h8, h9, h10, h11]

/-- Claim C6: when the commit succeeds but either aggregate read fails, the
handler reports a hard 500 failure, yet the committed batch remains in the
table: aggregation failure does not roll back the ingestion. -/
theorem c6_aggregation_failure_keeps_batch (db : Store) (o : DbOracle) (r : UploadRequest)
    (es : List ZipEntry) (e : ZipEntry)
    (h1 : r.contentTypeMultipart = true) (h2 : r.parseFormOk = true) (h3 : r.filePresent = true)
    (h4 : hasZipSuffix r.filename = true) (h5 : r.readOk = true) (h6 : r.archive = some es)
    (h7 : findCSV es = some e) (h8 : e.openOk = true) (h9 : o.beginOk = true)
    (h10 : o.prepareOk = true) (h11 : o.commitOk = true)
    (hagg : o.categoriesReadOk = false ∨ o.sumReadOk = false) :
    handlePostPrices db o r =
      (Response.error 500 "Internal Server Error",
       insertBatch db (processRows o.insertOk 0 e.content.tail).1) := by
  rw [handlePostPrices]
  rcases hagg with hagg | hagg
  · simp [h1, h2, h3, h4, h5, h6, h7, h8, h9, h10, h11, hagg, getInsertResult]
  · rcases Bool.eq_false_or_eq_true o.categoriesReadOk with hcat | hcat
    · simp [h1, h2, h3, h4, h5, h6, h7, h8, h9, h10, h11, hcat, hagg, getInsertResult]
    · simp [h1, h2, h3, h4, h5, h6, h7, h8, h9, h10, h11, hcat, getInsertResult]

/-- Claim C7: a request whose payload is not a recognized archive upload
(non-multipart, failed form parse, missing file field, bytes that are not a
zip archive, or an archive with no data entry) fails with a client (400)
error whose outcome does not depend on the database oracle at all, and the
table is unchanged. -/
theorem c7_input_format_errors (db : Store) (r : UploadRequest)
    (h : r.contentTypeMultipart = false ∨ r.parseFormOk = false ∨ r.filePresent = false ∨
      (r.readOk = true ∧ r.archive = none) ∨
      (r.readOk = true ∧ ∃ es, r.archive = some es ∧ findCSV es = none)) :
    ∃ msg, ∀ o : DbOracle, handlePostPrices db o r = (Response.error 400 msg, db) := by
  rcases Bool.eq_false_or_eq_true r.contentTypeMultipart with hb1 | hb1
  case inr => exact ⟨"Expected multipart/form-data", fun o => by rw [handlePostPrices]; simp [hb1]⟩
  rcases Bool.eq_false_or_eq_true r.parseFormOk with hb2 | hb2
  case inr => exact ⟨"Bad Request", fun o => by rw [handlePostPrices]; simp [hb1, hb2]⟩
  rcases Bool.eq_false_or_eq_true r.filePresent with hb3 | hb3
  case inr => exact ⟨"Bad Request", fun o => by rw [handlePostPrices]; simp [hb1, hb2, hb3]⟩
  rcases Bool.eq_false_or_eq_true (hasZipSuffix r.filename) with hb4 | hb4
  case inr => exact ⟨"File must be a ZIP archive", fun o => by
    rw [handlePostPrices]; simp [hb1, hb2, hb3, hb4]⟩
  rcases h with h | h | h | ⟨hro, ha⟩ | ⟨hro, es, ha, hfind⟩
  · rw [hb1] at h; exact absurd h (by simp)
  · rw [hb2] at h; exact absurd h (by simp)
  · rw [hb3] at h; exact absurd h (by simp)
  · exact ⟨"Bad Request", fun o => by rw [handlePostPrices]; simp [hb1, hb2, hb3, hb4, hro, ha]⟩
  · exact ⟨"CSV file not found in ZIP", fun o => by
      rw [handlePostPrices]; simp [hb1, hb2, hb3, hb4, hro, ha, hfind]⟩

/-- Claim C10: whenever the submitted filename does not end in `.zip` after
ASCII lowercasing, the request is rejected with 400 `File must be a ZIP
archive` and the table is unchanged, regardless of the read outcome and of
what the uploaded bytes are — even a valid archive; and this gate is in
addition to the archive-format check, which still rejects non-archive bytes
under a conforming filename. -/
theorem c10_filename_gate (db : Store) (o : DbOracle) :
    (∀ r : UploadRequest, r.contentTypeMultipart = true → r.parseFormOk = true →
      r.filePresent = true → hasZipSuffix r.filename = false →
      handlePostPrices db o r = (Response.error 400 "File must be a ZIP archive", db)) ∧
    (∀ r : UploadRequest, r.contentTypeMultipart = true → r.parseFormOk = true →
      r.filePresent = true → hasZipSuffix r.filename = true → r.readOk = true →
      r.archive = none →
      handlePostPrices db o r = (Response.error 400 "Bad Request", db)) := by
  constructor
  · intro r h1 h2 h3 h4
    rw [handlePostPrices]
    simp [h1, h2, h3, h4]
  · intro r h1 h2 h3 h4 h5 h6
    rw [handlePostPrices]
    simp [h1, h2, h3, h4, h5, h6]

/-- Claim C8: the unpacker selects the first archive entry whose name ends in
the `data.csv` suffix, so an archive whose only matching entry is the nested
`foo/data.csv` still imports successfully, while an archive with no matching
entry fails with the 400 `CSV file not found in ZIP` error and an unchanged
table. -/
theorem c8_suffix_entry_matching (db : Store) (pre post es : List ZipEntry) (e : ZipEntry)
    (content : List RowRead)
    (hpre : ∀ x ∈ pre, endsWithCh x.name.data "data.csv".data = false)
    (he : endsWithCh e.name.data "data.csv".data = true)
    (hnone : ∀ x ∈ es, endsWithCh x.name.data "data.csv".data = false) :
    findCSV (pre ++ e :: post) = some e ∧
    (∀ o : DbOracle, handlePostPrices db o ⟨true, true, true, "a.zip", true, some es⟩ =
      (Response.error 400 "CSV file not found in ZIP", db)) ∧
    (∃ res st, handlePostPrices db allOkOracle
        ⟨true, true, true, "a.zip", true, some [⟨"foo/data.csv", true, content⟩]⟩ =
      (Response.ok res, st)) := by
  have hzip : hasZipSuffix "a.zip" = true := by decide
  refine ⟨findCSV_first pre e post hpre he, ?_, ?_⟩
  · intro o
    have hfn : findCSV es = none := (findCSV_none_iff es).mpr hnone
    rw [handlePostPrices]
    simp [hzip, hfn]
  · have hfoo : endsWithCh ("foo/data.csv" : String).data ("data.csv" : String).data = true := by
      decide
    have hfind : findCSV [⟨"foo/data.csv", true, content⟩] =
        some ⟨"foo/data.csv", true, content⟩ := by
      rw [findCSV]
      exact List.find?_cons_of_pos _ hfoo
    refine ⟨⟨(processRows (fun _ => true) 0 content.tail).2.1,
      distinctCategories (insertBatch db (processRows (fun _ => true) 0 content.tail).1),
      sumPrice (insertBatch db (processRows (fun _ => true) 0 content.tail).1)⟩,
      insertBatch db (processRows (fun _ => true) 0 content.tail).1, ?_⟩
    rw [handlePostPrices]
    simp [hzip, hfind, allOkOracle, getInsertResult]

/-- Claim C1 (amended): re-importing the exported archive inserts exactly one
row per exported row — the count round-trips — and each inserted row is
assigned a fresh identifier; but because the export writes the layout
`id, product_id, name, category, price, create_date` while the import reads
`productID, name, category, ignored, price, createDate`, the re-imported rows
hold the exported store `id` as productID, the printed original productID as
name, and the original name as category; only price (up to the export's
two-decimal rounding) and createDate are preserved in place. -/
theorem c1_roundtrip_amended (s db : Store)
    (hv : ∀ p ∈ s.rows, validDateB p.createDate = true ∧ p.createDate.year ≤ 9999) :
    handlePostPrices db allOkOracle (exportUpload s) =
      (Response.ok ⟨s.rows.length,
         distinctCategories (insertBatch db ((sortById s.rows).map reimport)),
         sumPrice (insertBatch db ((sortById s.rows).map reimport))⟩,
       insertBatch db ((sortById s.rows).map reimport)) ∧
    (insertBatch db ((sortById s.rows).map reimport)).rows =
      db.rows ++ storedOf db.nextId ((sortById s.rows).map reimport) := by
  refine ⟨roundtrip_eval s db hv, ?_⟩
  rw [insertBatch_eq]

/-- Claim C1 is false as stated: for the single-row store whose row has
productID 42, name `apple`, category `fruit`, the re-imported row does not
carry the same productID, name and category field values — they are shifted
by the mismatch between the export and import column layouts. -/
theorem c1_roundtrip_counterexample :
    ((handlePostPrices ⟨1, []⟩ allOkOracle
        (exportUpload ⟨2, [⟨1, 42, "apple", "fruit", 10, ⟨2024, 1, 2⟩⟩]⟩)).2.rows.map
      fun p => (p.productID, p.name, p.category)) ≠
    [((42 : Int), "apple", "fruit")] := by
  have h := roundtrip_eval ⟨2, [⟨1, 42, "apple", "fruit", 10, ⟨2024, 1, 2⟩⟩]⟩ ⟨1, []⟩ (by decide)
  rw [h, insertBatch_eq]
  simp only [sortById, List.foldr, insertSorted, List.map_cons, List.map_nil, storedOf,
    reimport, List.nil_append, List.map]
  decide

lemma parseFloatOr0_ten : parseFloatOr0 "10.00" = 10 := by
  have h : decodeFloat? "10.00" = some ⟨false, 10, 0, 2, 0⟩ := by decide
  rw [parseFloatOr0, parseFloat?, h]
  show ratOfParts ⟨false, 10, 0, 2, 0⟩ = 10
  rw [ratOfParts]
  norm_num

lemma parseFloatOr0_twenty : parseFloatOr0 "20.50" = 41 / 2 := by
  have h : decodeFloat? "20.50" = some ⟨false, 20, 50, 2, 0⟩ := by decide
  rw [parseFloatOr0, parseFloat?, h]
  show ratOfParts ⟨false, 20, 50, 2, 0⟩ = 41 / 2
  rw [ratOfParts]
  norm_num

lemma mkRecord_rowA : mkRecord ["1", "a", "catA", "x", "10.00", "2024-01-02"] =
    ⟨1, "a", "catA", 10, ⟨2024, 1, 2⟩⟩ := by
  have h1 : atoi "1" = 1 := by decide
  have h2 : parseDateOr0 "2024-01-02" = ⟨2024, 1, 2⟩ := by decide
  rw [mkRecord]
  simp only [List.getD_cons_zero, List.getD_cons_succ]
  rw [h1, parseFloatOr0_ten, h2]

lemma mkRecord_rowB : mkRecord ["2", "b", "catB", "x", "20.50", "2024-01-03"] =
    ⟨2, "b", "catB", 41 / 2, ⟨2024, 1, 3⟩⟩ := by
  have h1 : atoi "2" = 2 := by decide
  have h2 : parseDateOr0 "2024-01-03" = ⟨2024, 1, 3⟩ := by decide
  rw [mkRecord]
  simp only [List.getD_cons_zero, List.getD_cons_succ]
  rw [h1, parseFloatOr0_twenty, h2]

lemma twoPrice_eval :
    handlePostPrices ⟨1, []⟩ allOkOracle twoPriceUpload =
      (Response.ok ⟨2, 2, 61 / 2⟩,
       ⟨3, [⟨1, 1, "a", "catA", 10, ⟨2024, 1, 2⟩⟩,
            ⟨2, 2, "b", "catB", 41 / 2, ⟨2024, 1, 3⟩⟩]⟩) := by
  have hp : endsWithCh ("data.csv" : String).data ("data.csv" : String).data = true := by decide
  have hfind : findCSV [⟨"data.csv", true,
      [RowRead.ok ["id", "name", "category", "extra", "price", "create_date"],
       RowRead.ok ["1", "a", "catA", "x", "10.00", "2024-01-02"],
       RowRead.ok ["2", "b", "catB", "x", "20.50", "2024-01-03"]]⟩] =
      some ⟨"data.csv", true,
      [RowRead.ok ["id", "name", "category", "extra", "price", "create_date"],
       RowRead.ok ["1", "a", "catA", "x", "10.00", "2024-01-02"],
       RowRead.ok ["2", "b", "catB", "x", "20.50", "2024-01-03"]]⟩ := by
    rw [findCSV]
    exact List.find?_cons_of_pos _ hp
  have hproc : processRows (fun _ => true) 0
      [RowRead.ok ["1", "a", "catA", "x", "10.00", "2024-01-02"],
       RowRead.ok ["2", "b", "catB", "x", "20.50", "2024-01-03"]] =
      ([(⟨1, "a", "catA", 10, ⟨2024, 1, 2⟩⟩ : PriceRecord),
        ⟨2, "b", "catB", 41 / 2, ⟨2024, 1, 3⟩⟩], 2, 2) := by
    have h6a : ¬(["1", "a", "catA", "x", "10.00", "2024-01-02"] : List String).length < 6 := by
      decide
    have h6b : ¬(["2", "b", "catB", "x", "20.50", "2024-01-03"] : List String).length < 6 := by
      decide
    rw [processRows, if_neg h6a, if_pos rfl, processRows, if_neg h6b, if_pos rfl, processRows,
      mkRecord_rowA, mkRecord_rowB]
  have hdc : distinctCategories ⟨3, [⟨1, 1, "a", "catA", 10, ⟨2024, 1, 2⟩⟩,
      ⟨2, 2, "b", "catB", 41 / 2, ⟨2024, 1, 3⟩⟩]⟩ = 2 := by
    rw [distinctCategories]
    decide
  have hsp : sumPrice ⟨3, [⟨1, 1, "a", "catA", 10, ⟨2024, 1, 2⟩⟩,
      ⟨2, 2, "b", "catB", 41 / 2, ⟨2024, 1, 3⟩⟩]⟩ = 61 / 2 := by
    rw [sumPrice]
    simp only [List.map_cons, List.map_nil, List.sum_cons, List.sum_nil]
    norm_num
  have hins : insertBatch ⟨1, []⟩
      [(⟨1, "a", "catA", 10, ⟨2024, 1, 2⟩⟩ : PriceRecord),
       ⟨2, "b", "catB", 41 / 2, ⟨2024, 1, 3⟩⟩] =
      ⟨3, [⟨1, 1, "a", "catA", 10, ⟨2024, 1, 2⟩⟩,
           ⟨2, 2, "b", "catB", 41 / 2, ⟨2024, 1, 3⟩⟩]⟩ := by
    rw [insertBatch_eq]
    rfl
  rw [handlePostPrices]
  simp only [twoPriceUpload, hfind, List.tail_cons, hproc, hins, allOkOracle, Bool.not_true,
    Bool.false_eq_true, if_false, getInsertResult, Bool.not_false, if_true, hdc, hsp]
  simp
  decide

/-- Claim C9: on every fully successful ingestion the summary's
`totalPriceSum` is the sum of `price` over all rows of the resulting table
(an empty table summing to zero) and `totalDistinctCategories` counts each
distinct category string exactly once regardless of multiplicity; in
particular importing prices 10.00 and 20.50 into an empty table yields
totalPriceSum 30.50 and 2 distinct categories. -/
theorem c9_aggregate_reads (db : Store) (o : DbOracle) (r : UploadRequest)
    (es : List ZipEntry) (e : ZipEntry)
    (h1 : r.contentTypeMultipart = true) (h2 : r.parseFormOk = true) (h3 : r.filePresent = true)
    (h4 : hasZipSuffix r.filename = true) (h5 : r.readOk = true) (h6 : r.archive = some es)
    (h7 : findCSV es = some e) (h8 : e.openOk = true) (h9 : o.beginOk = true)
    (h10 : o.prepareOk = true) (h11 : o.commitOk = true) (h12 : o.categoriesReadOk = true)
    (h13 : o.sumReadOk = true) :
    (∃ st, handlePostPrices db o r =
        (Response.ok ⟨(processRows o.insertOk 0 e.content.tail).2.1,
          distinctCategories st, sumPrice st⟩, st) ∧
      distinctCategories st = (st.rows.map fun p => p.category).toFinset.card ∧
      sumPrice st = (st.rows.map fun p => p.price).sum) ∧
    (∀ n : Nat, sumPrice ⟨n, []⟩ = 0) ∧
    handlePostPrices ⟨1, []⟩ allOkOracle twoPriceUpload =
      (Response.ok ⟨2, 2, 61 / 2⟩,
       ⟨3, [⟨1, 1, "a", "catA", 10, ⟨2024, 1, 2⟩⟩,
            ⟨2, 2, "b", "catB", 41 / 2, ⟨2024, 1, 3⟩⟩]⟩) := by
  refine ⟨⟨insertBatch db (processRows o.insertOk 0 e.content.tail).1, ?_, ?_, rfl⟩,
    fun n => rfl, twoPrice_eval⟩
  · rw [handlePostPrices]
    simp [h1, h2, h3, h4, h5, h6, h7, h8, h9, h10, h11, h12, h13, getInsertResult]
  · rw [distinctCategories, List.card_toFinset]

/-- Witness for claim C1's amended theorem at the one-row fixture store. -/
theorem c1_roundtrip_amended_witness :
    handlePostPrices emptyStore allOkOracle (exportUpload sampleStore) =
      (Response.ok ⟨sampleStore.rows.length,
         distinctCategories (insertBatch emptyStore ((sortById sampleStore.rows).map reimport)),
         sumPrice (insertBatch emptyStore ((sortById sampleStore.rows).map reimport))⟩,
       insertBatch emptyStore ((sortById sampleStore.rows).map reimport)) ∧
    (insertBatch emptyStore ((sortById sampleStore.rows).map reimport)).rows =
      emptyStore.rows ++ storedOf emptyStore.nextId ((sortById sampleStore.rows).map reimport) :=
  c1_roundtrip_amended sampleStore emptyStore (by decide)

/-- Witness for claim C2 at the sample fixtures. -/
theorem c2_total_items_count_witness :
    ∃ st res, handlePostPrices emptyStore allOkOracle sampleRequest = (Response.ok res, st) ∧
      res.totalItems = countInserted allOkOracle.insertOk 0 sampleEntry.content.tail ∧
      st.rows.length = emptyStore.rows.length + res.totalItems :=
  c2_total_items_count emptyStore allOkOracle sampleRequest [sampleEntry] sampleEntry
    rfl rfl rfl (by decide) rfl rfl (by decide) rfl rfl rfl rfl rfl rfl

/-- Witness for claim C3 at a row on which every conversion fails. -/
theorem c3_lenient_field_conversions_witness :
    processRows (fun _ => true) 0 (RowRead.ok badRow :: []) =
      (mkRecord badRow :: (processRows (fun _ => true) (0 + 1) []).1,
       (processRows (fun _ => true) (0 + 1) []).2.1 + 1,
       (processRows (fun _ => true) (0 + 1) []).2.2) ∧
    (decodeSignedNat? (badRow.getD 0 "").data = none → (mkRecord badRow).productID = 0) ∧
    (decodeFloat? (badRow.getD 4 "") = none → (mkRecord badRow).price = 0) ∧
    (parseDate? (badRow.getD 5 "") = none → (mkRecord badRow).createDate = zeroDate) :=
  c3_lenient_field_conversions badRow (fun _ => true) 0 [] (by decide) rfl

/-- Witness for claim C4 at a five-column row. -/
theorem c4_short_row_skipped_witness :
    processRows allOkOracle.insertOk 0 ([] ++ RowRead.ok shortRow :: []) =
      processRows allOkOracle.insertOk 0 ([] ++ []) ∧
    processRows allOkOracle.insertOk 0 ([] ++ RowRead.err :: []) =
      processRows allOkOracle.insertOk 0 ([] ++ []) ∧
    handlePostPrices emptyStore allOkOracle ⟨true, true, true, "up.zip", true,
        some [⟨"data.csv", true, RowRead.ok ["x"] :: ([] ++ RowRead.ok shortRow :: [])⟩]⟩ =
      handlePostPrices emptyStore allOkOracle ⟨true, true, true, "up.zip", true,
        some [⟨"data.csv", true, RowRead.ok ["x"] :: ([] ++ [])⟩]⟩ :=
  c4_short_row_skipped allOkOracle emptyStore 0 "up.zip" (RowRead.ok ["x"]) [] []
    (f := shortRow) (by decide)

/-- Witness for claim C5 at the sample fixtures with a failing commit. -/
theorem c5_commit_failure_rolls_back_witness :
    handlePostPrices emptyStore commitFailOracle sampleRequest =
      (Response.error 500 "Internal Server Error", emptyStore) :=
  c5_commit_failure_rolls_back emptyStore commitFailOracle sampleRequest [sampleEntry] sampleEntry
    rfl rfl rfl (by decide) rfl rfl (by decide) rfl rfl rfl rfl

/-- Witness for claim C6 at the sample fixtures with a failing aggregate read. -/
theorem c6_aggregation_failure_keeps_batch_witness :
    handlePostPrices emptyStore aggFailOracle sampleRequest =
      (Response.error 500 "Internal Server Error",
       insertBatch emptyStore
         (processRows aggFailOracle.insertOk 0 sampleEntry.content.tail).1) :=
  c6_aggregation_failure_keeps_batch emptyStore aggFailOracle sampleRequest [sampleEntry]
    sampleEntry rfl rfl rfl (by decide) rfl rfl (by decide) rfl rfl rfl rfl (Or.inl rfl)

/-- Witness for claim C7 at an upload whose bytes are not a valid archive. -/
theorem c7_input_format_errors_witness :
    ∃ msg, ∀ o : DbOracle,
      handlePostPrices emptyStore o ⟨true, true, true, "up.zip", true, none⟩ =
        (Response.error 400 msg, emptyStore) :=
  c7_input_format_errors emptyStore ⟨true, true, true, "up.zip", true, none⟩
    (Or.inr (Or.inr (Or.inr (Or.inl ⟨rfl, rfl⟩))))

/-- Witness for claim C8 at a nested `foo/data.csv` entry and an empty archive. -/
theorem c8_suffix_entry_matching_witness :
    findCSV ([] ++ (⟨"foo/data.csv", true, []⟩ : ZipEntry) :: []) =
      some ⟨"foo/data.csv", true, []⟩ ∧
    (∀ o : DbOracle, handlePostPrices emptyStore o ⟨true, true, true, "a.zip", true, some []⟩ =
      (Response.error 400 "CSV file not found in ZIP", emptyStore)) ∧
    (∃ res st, handlePostPrices emptyStore allOkOracle
        ⟨true, true, true, "a.zip", true, some [⟨"foo/data.csv", true, []⟩]⟩ =
      (Response.ok res, st)) :=
  c8_suffix_entry_matching emptyStore [] [] [] ⟨"foo/data.csv", true, []⟩ []
    (by simp) (by decide) (by simp)

/-- Witness for claim C9 at the sample fixtures. -/
theorem c9_aggregate_reads_witness :
    (∃ st, handlePostPrices emptyStore allOkOracle sampleRequest =
        (Response.ok ⟨(processRows allOkOracle.insertOk 0 sampleEntry.content.tail).2.1,
          distinctCategories st, sumPrice st⟩, st) ∧
      distinctCategories st = (st.rows.map fun p => p.category).toFinset.card ∧
      sumPrice st = (st.rows.map fun p => p.price).sum) ∧
    (∀ n : Nat, sumPrice ⟨n, []⟩ = 0) ∧
    handlePostPrices ⟨1, []⟩ allOkOracle twoPriceUpload =
      (Response.ok ⟨2, 2, 61 / 2⟩,
       ⟨3, [⟨1, 1, "a", "catA", 10, ⟨2024, 1, 2⟩⟩,
            ⟨2, 2, "b", "catB", 41 / 2, ⟨2024, 1, 3⟩⟩]⟩) :=
  c9_aggregate_reads emptyStore allOkOracle sampleRequest [sampleEntry] sampleEntry
    rfl rfl rfl (by decide) rfl rfl (by decide) rfl rfl rfl rfl rfl rfl

/-- Witness for claim C10: a request whose filename is `data.csv` is rejected
by the filename gate, and a `.zip`-named upload of non-archive bytes is
rejected by the archive check. -/
theorem c10_filename_gate_witness :
    handlePostPrices emptyStore allOkOracle ⟨true, true, true, "data.csv", true, some []⟩ =
      (Response.error 400 "File must be a ZIP archive", emptyStore) ∧
    handlePostPrices emptyStore allOkOracle ⟨true, true, true, "up.zip", true, none⟩ =
      (Response.error 400 "Bad Request", emptyStore) :=
  ⟨(c10_filename_gate emptyStore allOkOracle).1 ⟨true, true, true, "data.csv", true, some []⟩
      rfl rfl rfl (by decide),
   (c10_filename_gate emptyStore allOkOracle).2 ⟨true, true, true, "up.zip", true, none⟩
      rfl rfl rfl (by decide) rfl rfl⟩

end PriceImport
